import Mathlib

/-!
Verification of the pulsar redis task backend
(`src/pulsar/apps/tasks/backends/redis.py`) against its design document.

The backend is embedded shallowly: the persistent store, the ready-queue,
the per-process waiter registry and the pub/sub channel are components of
an explicit `BackendState`, and every backend operation is a pure function
from a state (plus arguments) to a new state and a result.  Side effects
that the design document talks about (store reads and writes, queue pushes
and pops, channel publishes, waiter resolutions) are recorded in a
chronological event log inside the state, so that ordering and frame
properties can be stated.
-/

namespace PulsarTasks

/-- Modelled from the spec: the `states` module of `pulsar.apps.tasks` is not
under `src/`.  Section 4.1 of the design document fixes the five lifecycle
states: `QUEUED` and `STARTED` are the non-terminal states and `SUCCESS`,
`FAILURE`, `REVOKED` are the terminal ones. -/
inductive TaskStatus where
  | QUEUED
  | STARTED
  | SUCCESS
  | FAILURE
  | REVOKED
deriving DecidableEq, Repr

/-- Modelled from the spec: section 4.1 defines the terminal states as
`SUCCESS`, `FAILURE` and `REVOKED`. -/
def TaskStatus.terminal : TaskStatus → Bool
  | TaskStatus.SUCCESS => true
  | TaskStatus.FAILURE => true
  | TaskStatus.REVOKED => true
  | _ => false

/-- Dynamic values stored in task-record fields.  Scalar payloads
(`args`, `kwargs`, `result`, timestamps) are carried by the repository as
uninterpreted serialized data; `vstr` and `vnat` stand for such payloads,
`vstatus` carries a lifecycle state (the `status` symbol field), `vnone`
is Python `None`, and `vmap` is a JSON object (the `meta` field). -/
inductive Value where
  | vnone : Value
  | vstr : String → Value
  | vnat : Nat → Value
  | vstatus : TaskStatus → Value
  | vmap : List (String × Value) → Value

/-- Python dict assignment `d[k] = v` on an association list: replace the
value at an existing key in place, otherwise append the new pair. -/
def insertKV : List (String × Value) → String → Value → List (String × Value)
  | [], k, v => [(k, v)]
  | (k0, v0) :: rest, k, v =>
      if k0 == k then (k, v) :: rest else (k0, v0) :: insertKV rest k v

/-- Python dict lookup `d.get(k)` on an association list. -/
def lookupKV : List (String × Value) → String → Option Value
  | [], _ => none
  | (k0, v0) :: rest, k => if k0 == k then some v0 else lookupKV rest k

/-- `task_data.meta[field] = value`: insert into the JSON object held by the
`meta` field.  `JSONField` guarantees a mapping (its default is the empty
object), so the non-map fallback starts from the empty object. -/
def vmapInsert (m : Value) (k : String) (v : Value) : Value :=
  match m with
  | Value.vmap l => Value.vmap (insertKV l k v)
  | _ => Value.vmap (insertKV [] k v)

/-- Lookup in the JSON object held by a `meta` value. -/
def vmapGet (m : Value) (k : String) : Option Value :=
  match m with
  | Value.vmap l => lookupKV l k
  | _ => none

/-- The `TaskData` model of `redis.py` lines 21-36: primary key `id` plus the
scalar and JSON data fields.  The class-level `queue` list field is not an
instance field; it is the ready-queue and lives in `BackendState`. -/
structure TaskData where
  id : String
  name : Value := Value.vnone
  status : Value := Value.vnone
  args : Value := Value.vnone
  kwargs : Value := Value.vnone
  result : Value := Value.vnone
  from_task : Value := Value.vnone
  time_executed : Value := Value.vnone
  time_started : Value := Value.vnone
  time_ended : Value := Value.vnone
  expiry : Value := Value.vnone
  meta : Value := Value.vmap []

/-- The recognized data-field names of a task record
(`task_data._meta.dfields` in `save_task`, line 112).  These are the
attributes of the Task Record fixed by section 3 of the design document;
the primary key is the identity of the record and is immutable (section 3),
and the class-level `queue` field is not an instance field. -/
def dfieldNames : List String :=
  ["name", "status", "args", "kwargs", "result", "from_task",
   "time_executed", "time_started", "time_ended", "expiry", "meta"]

/-- `setattr(task_data, field, value)` for a recognized data field
(`save_task` line 113). -/
def setField (td : TaskData) (f : String) (v : Value) : TaskData :=
  if f == "name" then { td with name := v }
  else if f == "status" then { td with status := v }
  else if f == "args" then { td with args := v }
  else if f == "kwargs" then { td with kwargs := v }
  else if f == "result" then { td with result := v }
  else if f == "from_task" then { td with from_task := v }
  else if f == "time_executed" then { td with time_executed := v }
  else if f == "time_started" then { td with time_started := v }
  else if f == "time_ended" then { td with time_ended := v }
  else if f == "expiry" then { td with expiry := v }
  else if f == "meta" then { td with meta := v }
  else td

/-- `getattr(task_data, field)` for a recognized data field. -/
def getField (td : TaskData) (f : String) : Option Value :=
  if f == "name" then some td.name
  else if f == "status" then some td.status
  else if f == "args" then some td.args
  else if f == "kwargs" then some td.kwargs
  else if f == "result" then some td.result
  else if f == "from_task" then some td.from_task
  else if f == "time_executed" then some td.time_executed
  else if f == "time_started" then some td.time_started
  else if f == "time_ended" then some td.time_ended
  else if f == "expiry" then some td.expiry
  else if f == "meta" then some td.meta
  else none

/-- The body of the field loop of `save_task` (lines 111-116): a supplied
field that matches a recognized data field is set directly on the record,
any other field is merged into the `meta` JSON object. -/
def applyParam (td : TaskData) (p : String × Value) : TaskData :=
  if dfieldNames.contains p.1 then setField td p.1 p.2
  else { td with meta := vmapInsert td.meta p.1 p.2 }

/-- The whole field loop of `save_task` over the supplied keyword
parameters, in order. -/
def applyParams (td : TaskData) (ps : List (String × Value)) : TaskData :=
  ps.foldl applyParam td

/-- The last value supplied for a given field name in a keyword-parameter
list (a later occurrence overwrites an earlier one in the field loop). -/
def lookupLast (ps : List (String × Value)) (f : String) : Option Value :=
  match ps with
  | [] => none
  | p :: rest =>
      match lookupLast rest f with
      | some v => some v
      | none => if p.1 == f then some p.2 else none

/-- Modelled from the spec: `Task.done()` of `pulsar.apps.tasks.backends`
is not under `src/`.  Section 4.1: done means the status is one of the
terminal states. -/
def TaskData.done (td : TaskData) : Bool :=
  match td.status with
  | Value.vstatus st => st.terminal
  | _ => false

/-- A fresh record as produced by `task_manager.new(id=task_id, **params)`
(`save_task` line 119): the store collaborator creates a record with the
given id and the supplied fields (sections 3 and 4.2 of the design
document); field classification follows the same recognized-or-meta rule
as the update path (section 3: any key not recognized by a save call is
merged into `meta` rather than rejected). -/
def TaskData.new (task_id : String) (ps : List (String × Value)) : TaskData :=
  applyParams { id := task_id } ps

/-- Modelled from the spec: the `TaskCallbacks` registry of
`pulsar.apps.tasks.backends` is not under `src/`.  Section 3: a map from
task id to the pending completion requests for that id; represented here
by the list of ids that currently have a pending waiter. -/
structure TaskCallbacks where
  pending : List String

/-- Modelled from the spec: `TaskCallbacks.finish`.  Sections 4.4
(`delete` force-resolves outstanding waiters of deleted records), 7 and 8
(`delete([id])` while a `waitFor(id)` is pending releases that wait):
`finish` pops any pending waiter for the id of the given task and fires it
with that task, regardless of the status of the task (deleted records need
not be terminal); an id with no registered waiter is a harmless no-op
(section 4.5).  The boolean reports whether a waiter was fired. -/
def TaskCallbacks.finish (w : TaskCallbacks) (t : TaskData) :
    TaskCallbacks × Bool :=
  (⟨w.pending.filter (fun x => !(x == t.id))⟩, w.pending.contains t.id)

/-- Result of `TaskCallbacks.when_done`: either the task is already done
and is delivered at once, or a waiter for its id is registered and the
caller suspends on it. -/
inductive WhenDoneRes where
  | ready : TaskData → WhenDoneRes
  | waiting : String → WhenDoneRes

/-- Modelled from the spec: `TaskCallbacks.when_done`.  Section 4.5: if the
task is already terminal it resolves immediately (also firing any pending
waiter for the id, which is how `save_task` line 121 resolves local
waiters, section 4.4); otherwise a pending handle is registered under the
id (if not already present) and the caller suspends.  The final boolean
reports whether an already-registered waiter was fired. -/
def TaskCallbacks.when_done (w : TaskCallbacks) (t : TaskData) :
    TaskCallbacks × WhenDoneRes × Bool :=
  if t.done then
    let f := w.finish t
    (f.1, WhenDoneRes.ready t, f.2)
  else if w.pending.contains t.id then (w, WhenDoneRes.waiting t.id, false)
  else (⟨w.pending ++ [t.id]⟩, WhenDoneRes.waiting t.id, false)

/-- Observable side effects of the backend, recorded in program order:
store reads (a filter by id set), store writes (persisting one record),
store deletions, queue pushes and blocking pops (with the timeout passed
to the pop), channel publishes, and waiter resolutions (carrying the task
delivered to the waiter). -/
inductive Event where
  | storeRead : List String → Event
  | storeWrite : String → Event
  | storeDelete : List String → Event
  | queuePush : String → Event
  | queuePop : Nat → Option String → Event
  | publish : String → String → Event
  | resolve : TaskData → Event

/-- The state a backend instance acts on: the record store and the
ready-queue (shared, external), the process-local waiter registry, and the
chronological event log. -/
structure BackendState where
  store : List TaskData
  queue : List String
  watched : TaskCallbacks
  events : List Event

/-- `_get_task` (lines 149-152): `filter(id=task_id).all()` and take the
first result if any. -/
def findTask (store : List TaskData) (task_id : String) : Option TaskData :=
  (store.filter (fun t => t.id == task_id)).head?

/-- `task_data.save()`: upsert by primary key — replace the stored record
with the same id, or append the record if its id is not present. -/
def storeSave (store : List TaskData) (td : TaskData) : List TaskData :=
  if store.any (fun r => r.id == td.id) then
    store.map (fun r => if r.id == td.id then td else r)
  else store ++ [td]

/-- `num_tasks` (lines 69-72): the size of the ready-queue. -/
def num_tasks (s : BackendState) : Nat := s.queue.length

/-- `put_task` (lines 74-81): load the record; when absent the generator
produces nothing (`None`); when present set its status to `QUEUED`,
persist it, push its id onto the ready-queue and produce the id. -/
def put_task (s : BackendState) (task_id : String) :
    BackendState × Option String :=
  match findTask s.store task_id with
  | none =>
      ({ s with events := s.events ++ [Event.storeRead [task_id]] }, none)
  | some td0 =>
      let td := { td0 with status := Value.vstatus TaskStatus.QUEUED }
      ({ store := storeSave s.store td,
         queue := s.queue ++ [td.id],
         watched := s.watched,
         events := s.events ++
           [Event.storeRead [task_id], Event.storeWrite td.id,
            Event.queuePush td.id] },
       some td.id)

/-- Results of `get_task`: pop timeout or missing record (the generator
produces nothing), a task returned directly, or a registered suspension
that resolves when the task with the given id reaches a terminal state. -/
inductive GetResult where
  | absent : GetResult
  | task : TaskData → GetResult
  | waiting : String → GetResult

/-- The tail of `get_task` once an id has been obtained (lines 92-99).
The guard `if task_id:` is Python truthiness, so a falsy (empty) id
produces nothing.  Otherwise the record is loaded; when absent the call
produces nothing; when present, without `when_done` the task is returned
directly, with `when_done` the waiter registry either delivers the task at
once (already terminal) or registers a suspension for its id. -/
def load_task (s : BackendState) (tid : String) (when_done : Bool) :
    BackendState × GetResult :=
  if tid == "" then (s, GetResult.absent)
  else
    let s2 : BackendState :=
      { s with events := s.events ++ [Event.storeRead [tid]] }
    match findTask s.store tid with
    | none => (s2, GetResult.absent)
    | some td =>
        if when_done then
          let wres := s2.watched.when_done td
          let s3 : BackendState :=
            { s2 with
              watched := wres.1
              events := s2.events ++
                (if wres.2.2 then [Event.resolve td] else []) }
          (s3,
           match wres.2.1 with
           | WhenDoneRes.ready t2 => GetResult.task t2
           | WhenDoneRes.waiting i => GetResult.waiting i)
        else (s2, GetResult.task td)

/-- The queue branch of `get_task` (line 91):
`queue.block_pop_front(timeout=timeout)` — pop the front id if the queue
is non-empty, otherwise time out and produce nothing; then continue with
`load_task`. -/
def get_task_pop (s : BackendState) (when_done : Bool) (timeout : Nat) :
    BackendState × GetResult :=
  match s.queue with
  | [] =>
      ({ s with events := s.events ++ [Event.queuePop timeout none] },
       GetResult.absent)
  | h :: rest =>
      load_task
        { s with
          queue := rest
          events := s.events ++ [Event.queuePop timeout (some h)] }
        h when_done

/-- `get_task` (lines 83-99).  `if not task_id:` is Python truthiness: both
a missing id and an explicitly supplied empty string fall through to the
blocking pop from the ready-queue. -/
def get_task (s : BackendState) (task_id : Option String)
    (when_done : Bool) (timeout : Nat) : BackendState × GetResult :=
  match task_id with
  | none => get_task_pop s when_done timeout
  | some t =>
      if t == "" then get_task_pop s when_done timeout
      else load_task s t when_done

/-- The record that a `save_task` call persists: the loaded record with the
supplied fields applied, or a fresh record created from them when the id
is unknown (lines 109-119). -/
def savedRecord (s : BackendState) (task_id : String)
    (ps : List (String × Value)) : TaskData :=
  match findTask s.store task_id with
  | some td0 => applyParams td0 ps
  | none => TaskData.new task_id ps

/-- `save_task` (lines 106-125): load the record (or create one from the
supplied fields when absent), apply the recognized-or-meta field
classification, persist, hand the saved task to the waiter registry
(`when_done`, line 121), and if the saved task is done publish its id on
the `task_done` channel (lines 122-124) — the publish event follows the
store write in the log.  The call yields the task id. -/
def save_task (s : BackendState) (task_id : String)
    (ps : List (String × Value)) : BackendState × String :=
  let td := savedRecord s task_id ps
  let wres := s.watched.when_done td
  ({ store := storeSave s.store td,
     queue := s.queue,
     watched := wres.1,
     events := s.events ++
       [Event.storeRead [task_id], Event.storeWrite td.id] ++
       (if wres.2.2 then [Event.resolve td] else []) ++
       (if td.done then [Event.publish "task_done" task_id] else []) },
   task_id)

/-- The loop of `delete_tasks` (lines 134-136): `finish` every deleted
record against the registry, collecting the resolution events in order. -/
def finishAll (w : TaskCallbacks) (ts : List TaskData) :
    TaskCallbacks × List Event :=
  match ts with
  | [] => (w, [])
  | t :: rest =>
      let f := w.finish t
      let r := finishAll f.1 rest
      (r.1, (if f.2 then [Event.resolve t] else []) ++ r.2)

/-- `delete_tasks` (lines 127-137): `if ids:` is Python truthiness, so a
missing or empty id collection does nothing and yields 0.  Otherwise the
matching records are read, deleted from the store, every deleted record is
finished against the waiter registry, and the number of deleted records is
yielded. -/
def delete_tasks (s : BackendState) (ids : Option (List String)) :
    BackendState × Nat :=
  match ids with
  | none => (s, 0)
  | some l =>
      if l.isEmpty then (s, 0)
      else
        let matched := s.store.filter (fun t => l.contains t.id)
        let fr := finishAll s.watched matched
        ({ store := s.store.filter (fun t => !(l.contains t.id)),
           queue := s.queue,
           watched := fr.1,
           events := s.events ++
             [Event.storeRead l, Event.storeDelete l] ++ fr.2 },
         matched.length)

/-- `write` (lines 139-145): the `task_done` channel callback.  It reloads
the record by id; when the record exists it finishes the waiters for that
id with the reloaded record; when absent it does nothing. -/
def write (s : BackendState) (task_id : String) : BackendState :=
  match findTask s.store task_id with
  | none => { s with events := s.events ++ [Event.storeRead [task_id]] }
  | some td =>
      let f := s.watched.finish td
      { s with
        watched := f.1
        events := s.events ++ [Event.storeRead [task_id]] ++
          (if f.2 then [Event.resolve td] else []) }

/-! ### Basic lemmas about the store, the field loop and the registry -/

theorem findTask_id {store : List TaskData} {x : String} {t : TaskData}
    (h : findTask store x = some t) : t.id = x := by
  induction store with
  | nil => simp [findTask] at h
  | cons r rest ih =>
      by_cases hr : (r.id == x) = true
      · simp [findTask, List.filter_cons, hr] at h
        rw [← h]
        exact (beq_iff_eq.mp hr)
      · simp only [findTask, List.filter_cons, hr, if_neg, Bool.false_eq_true,
          ite_false] at h
        exact ih h

theorem setField_id (td : TaskData) (f : String) (v : Value) :
    (setField td f v).id = td.id := by
  simp [setField, apply_ite (fun t : TaskData => t.id), ite_self]

theorem applyParam_id (td : TaskData) (p : String × Value) :
    (applyParam td p).id = td.id := by
  unfold applyParam
  split_ifs
  · exact setField_id td p.1 p.2
  · rfl

theorem applyParams_id (ps : List (String × Value)) :
    ∀ td : TaskData, (applyParams td ps).id = td.id := by
  induction ps with
  | nil => intro td; rfl
  | cons p rest ih =>
      intro td
      simp only [applyParams, List.foldl_cons]
      exact (ih (applyParam td p)).trans (applyParam_id td p)

theorem savedRecord_id (s : BackendState) (tid : String)
    (ps : List (String × Value)) : (savedRecord s tid ps).id = tid := by
  unfold savedRecord
  cases h : findTask s.store tid with
  | none => exact applyParams_id ps { id := tid }
  | some td0 => exact (applyParams_id ps td0).trans (findTask_id h)

theorem findTask_storeSave (store : List TaskData) (td : TaskData) :
    findTask (storeSave store td) td.id = some td := by
  induction store with
  | nil => simp [storeSave, findTask]
  | cons r rest ih =>
      by_cases hr : (r.id == td.id) = true
      · have hr' : r.id = td.id := beq_iff_eq.mp hr
        simp [storeSave, List.any_cons, hr, findTask, List.filter_cons, hr']
      · have hr' : ¬ r.id = td.id := fun hc => hr (beq_iff_eq.mpr hc)
        have htail : storeSave (r :: rest) td = r :: storeSave rest td := by
          cases ha : rest.any (fun x => x.id == td.id) with
          | true => simp [storeSave, List.any_cons, hr, ha, hr']
          | false => simp [storeSave, List.any_cons, hr, ha, hr']
        rw [htail]
        simpa [findTask, List.filter_cons, hr] using ih

theorem mem_of_contains {l : List String} {x : String}
    (h : l.contains x = true) : x ∈ l := List.elem_iff.mp h

theorem not_mem_of_contains_false {l : List String} {x : String}
    (h : l.contains x = false) : x ∉ l := fun hm => by
  have h2 : l.contains x = true := List.elem_iff.mpr hm
  rw [h] at h2
  simp at h2

theorem setField_status (td : TaskData) (f : String) (v : Value) :
    (setField td f v).status = if f == "status" then v else td.status := by
  by_cases hf : (f == "status") = true
  · have h : f = "status" := beq_iff_eq.mp hf
    subst h
    rfl
  · simp [setField, apply_ite (fun t : TaskData => t.status), hf, ite_self]

theorem applyParam_status (td : TaskData) (p : String × Value) :
    (applyParam td p).status =
      if p.1 == "status" then p.2 else td.status := by
  unfold applyParam
  by_cases hc : dfieldNames.contains p.1 = true
  · simp [hc, mem_of_contains hc, setField_status]
  · have hne : (p.1 == "status") = false := by
      cases hb : (p.1 == "status") with
      | true =>
          have hpe : p.1 = "status" := beq_iff_eq.mp hb
          rw [hpe] at hc
          exact absurd (by decide : dfieldNames.contains "status" = true) hc
      | false => rfl
    have hc2 : p.1 ∉ dfieldNames :=
      not_mem_of_contains_false (Bool.not_eq_true _ ▸ Bool.of_not_eq_true hc)
    simp [hc2, hne]

theorem applyParams_status (ps : List (String × Value)) :
    ∀ td : TaskData, (applyParams td ps).status =
      match lookupLast ps "status" with
      | some v => v
      | none => td.status := by
  induction ps with
  | nil => intro td; rfl
  | cons p rest ih =>
      intro td
      simp only [applyParams, List.foldl_cons]
      have h2 := ih (applyParam td p)
      simp only [applyParams] at h2
      rw [h2]
      cases hl : lookupLast rest "status" with
      | some v => simp [lookupLast, hl]
      | none =>
          by_cases hp : (p.1 == "status") = true
          · simp [lookupLast, hl, applyParam_status, hp]
          · simp [lookupLast, hl, applyParam_status, hp]

theorem getField_setField_self (td : TaskData) (f : String) (v : Value)
    (h : dfieldNames.contains f = true) :
    getField (setField td f v) f = some v := by
  have h2 : f ∈ dfieldNames := List.elem_iff.mp h
  simp only [dfieldNames, List.mem_cons, List.mem_singleton,
    List.not_mem_nil, or_false] at h2
  rcases h2 with h2|h2|h2|h2|h2|h2|h2|h2|h2|h2|h2 <;> subst h2 <;> rfl

theorem setField_meta (td : TaskData) (f : String) (v : Value)
    (h : dfieldNames.contains f = true) (hm : f ≠ "meta") :
    (setField td f v).meta = td.meta := by
  have h2 : f ∈ dfieldNames := List.elem_iff.mp h
  simp only [dfieldNames, List.mem_cons, List.mem_singleton,
    List.not_mem_nil, or_false] at h2
  rcases h2 with h2|h2|h2|h2|h2|h2|h2|h2|h2|h2|h2 <;> subst h2 <;>
    first | rfl | exact absurd rfl hm

theorem applyParam_recognized (td : TaskData) (p : String × Value)
    (h : dfieldNames.contains p.1 = true) :
    applyParam td p = setField td p.1 p.2 := by
  simp [applyParam, mem_of_contains h]

theorem applyParam_unrecognized (td : TaskData) (p : String × Value)
    (h : dfieldNames.contains p.1 = false) :
    applyParam td p = { td with meta := vmapInsert td.meta p.1 p.2 } := by
  simp [applyParam, not_mem_of_contains_false h]

theorem lookupKV_insertKV (l : List (String × Value)) (k : String)
    (v : Value) : lookupKV (insertKV l k v) k = some v := by
  induction l with
  | nil => simp [insertKV, lookupKV]
  | cons p rest ih =>
      obtain ⟨k0, v0⟩ := p
      by_cases hp : (k0 == k) = true
      · simp [insertKV, hp, lookupKV]
      · simp [insertKV, hp, lookupKV, ih]

theorem vmapGet_vmapInsert (m : Value) (k : String) (v : Value) :
    vmapGet (vmapInsert m k v) k = some v := by
  cases m <;> simp [vmapInsert, vmapGet, lookupKV_insertKV]

theorem finish_pending (w : TaskCallbacks) (t : TaskData) :
    (w.finish t).1.pending = w.pending.filter (fun x => !(x == t.id)) := rfl

theorem finish_not_mem (w : TaskCallbacks) (t : TaskData) :
    t.id ∉ (w.finish t).1.pending := by
  intro hx
  have h := List.of_mem_filter hx
  simp at h

theorem when_done_not_done (w : TaskCallbacks) (t : TaskData)
    (h : t.done = false) :
    (w.when_done t).2.1 = WhenDoneRes.waiting t.id ∧
      t.id ∈ (w.when_done t).1.pending := by
  unfold TaskCallbacks.when_done
  rw [h]
  by_cases hc : w.pending.contains t.id = true
  · simp only [Bool.false_eq_true, if_false, hc, if_true]
    exact ⟨trivial, mem_of_contains hc⟩
  · simp only [Bool.false_eq_true, if_false, hc]
    exact ⟨trivial, List.mem_append_right _ (List.mem_singleton.mpr rfl)⟩

theorem when_done_done (w : TaskCallbacks) (t : TaskData)
    (h : t.done = true) :
    (w.when_done t).2.1 = WhenDoneRes.ready t ∧
      (w.when_done t).1 = (w.finish t).1 ∧
      (w.when_done t).2.2 = w.pending.contains t.id := by
  unfold TaskCallbacks.when_done
  rw [h]
  exact ⟨rfl, rfl, rfl⟩

theorem finishAll_pending_mono (ts : List TaskData) :
    ∀ (w : TaskCallbacks) (x : String), x ∉ w.pending →
      x ∉ (finishAll w ts).1.pending := by
  induction ts with
  | nil => intro w x h; exact h
  | cons t0 rest ih =>
      intro w x h
      simp only [finishAll]
      exact ih _ x (fun hx => h (List.mem_of_mem_filter hx))

theorem finishAll_removed (ts : List TaskData) :
    ∀ (w : TaskCallbacks) (t : TaskData), t ∈ ts →
      t.id ∉ (finishAll w ts).1.pending := by
  induction ts with
  | nil => intro w t h; cases h
  | cons t0 rest ih =>
      intro w t h
      rcases List.mem_cons.mp h with h0 | hr
      · subst h0
        simp only [finishAll]
        exact finishAll_pending_mono rest _ t.id (finish_not_mem w t)
      · simp only [finishAll]
        exact ih _ t hr

theorem finishAll_resolve_event (ts : List TaskData) :
    ∀ (w : TaskCallbacks) (t : TaskData), t ∈ ts → t.id ∈ w.pending →
      ∃ r : TaskData, Event.resolve r ∈ (finishAll w ts).2 ∧ r.id = t.id := by
  induction ts with
  | nil => intro w t h; cases h
  | cons t0 rest ih =>
      intro w t h hp
      simp only [finishAll]
      rcases List.mem_cons.mp h with h0 | hr
      · subst h0
        have hc : w.pending.contains t.id = true := List.elem_iff.mpr hp
        refine ⟨t, ?_, rfl⟩
        have hf : (w.finish t).2 = true := hc
        rw [hf]
        exact List.mem_append_left _ (List.mem_singleton.mpr rfl)
      · by_cases hsurv : t.id ∈ (w.finish t0).1.pending
        · obtain ⟨r, hrmem, hrid⟩ := ih (w.finish t0).1 t hr hsurv
          exact ⟨r, List.mem_append_right _ hrmem, hrid⟩
        · have hid : t.id = t0.id := by
            by_contra hne
            exact hsurv (List.mem_filter.mpr ⟨hp, by simp [hne]⟩)
          have hc : w.pending.contains t0.id = true := by
            rw [← hid]
            exact List.elem_iff.mpr hp
          refine ⟨t0, ?_, hid.symm⟩
          have hf : (w.finish t0).2 = true := hc
          rw [hf]
          exact List.mem_append_left _ (List.mem_singleton.mpr rfl)

theorem filter_length_split {α : Type} (p : α → Bool) (l : List α) :
    (l.filter p).length + (l.filter (fun a => !(p a))).length = l.length := by
  induction l with
  | nil => rfl
  | cons a rest ih =>
      cases h : p a <;> simp [List.filter_cons, h, ← ih] <;> omega

/-! ### Claim theorems -/

/-- Events that touch the ready-queue. -/
def isQueueEvent : Event → Bool
  | Event.queuePush _ => true
  | Event.queuePop _ _ => true
  | _ => false

/-- C8: `delete_tasks` called with a missing or empty id collection returns
0 and leaves the state untouched — no store read, no deletion, no waiter
resolution (the event log and the registry are unchanged because the whole
resulting state equals the input state). -/
theorem claim_C8_delete_empty_noop (s : BackendState) :
    delete_tasks s none = (s, 0) ∧ delete_tasks s (some []) = (s, 0) :=
  ⟨rfl, rfl⟩

/-- C10: `save_task` never modifies the ready-queue: whatever fields are
supplied (a `status` of `QUEUED` included), the queue component is
unchanged, `num_tasks` is unchanged, and no queue event (push or pop) is
appended to the log. -/
theorem claim_C10_save_task_queue_frame (s : BackendState)
    (task_id : String) (ps : List (String × Value)) :
    (save_task s task_id ps).1.queue = s.queue ∧
    num_tasks (save_task s task_id ps).1 = num_tasks s ∧
    (save_task s task_id ps).1.events.filter isQueueEvent =
      s.events.filter isQueueEvent := by
  refine ⟨rfl, rfl, ?_⟩
  simp [save_task, List.filter_append, isQueueEvent,
    apply_ite (List.filter isQueueEvent), ite_self]

/-- C4: `put_task` on an unknown id returns `None`, pushes nothing and
writes nothing; on a known id it sets the status of the record to
`QUEUED`, persists it, pushes the id onto the ready-queue and returns the
id. -/
theorem claim_C4_put_task (s : BackendState) (task_id : String) :
    (findTask s.store task_id = none →
       (put_task s task_id).2 = none ∧
       (put_task s task_id).1.store = s.store ∧
       (put_task s task_id).1.queue = s.queue) ∧
    (∀ td0, findTask s.store task_id = some td0 →
       (put_task s task_id).2 = some task_id ∧
       (put_task s task_id).1.queue = s.queue ++ [task_id] ∧
       findTask (put_task s task_id).1.store task_id =
         some { td0 with status := Value.vstatus TaskStatus.QUEUED } ∧
       Event.storeWrite task_id ∈ (put_task s task_id).1.events) := by
  constructor
  · intro h
    simp [put_task, h]
  · intro td0 h
    have hid : td0.id = task_id := findTask_id h
    simp only [put_task, h]
    refine ⟨by simp [hid], by simp [hid], ?_, by simp [hid]⟩
    rw [← hid]
    exact findTask_storeSave s.store
      { td0 with status := Value.vstatus TaskStatus.QUEUED }

/-- C3: `save_task` returns the given task id; the record it leaves in the
store under that id is the loaded record (or, when the id was unknown, a
fresh record) with the supplied fields applied; a supplied field matching
a recognized attribute is set directly on the record, and an unrecognized
field is merged into the `meta` mapping, never rejected. -/
theorem claim_C3_save_task (s : BackendState) (task_id : String)
    (ps : List (String × Value)) :
    (save_task s task_id ps).2 = task_id ∧
    findTask (save_task s task_id ps).1.store task_id =
      some (savedRecord s task_id ps) ∧
    (findTask s.store task_id = none →
       savedRecord s task_id ps = TaskData.new task_id ps) ∧
    (∀ td0, findTask s.store task_id = some td0 →
       savedRecord s task_id ps = applyParams td0 ps) ∧
    (∀ (td : TaskData) (f : String) (v : Value),
       dfieldNames.contains f = true →
       applyParam td (f, v) = setField td f v ∧
       getField (setField td f v) f = some v) ∧
    (∀ (td : TaskData) (f : String) (v : Value),
       dfieldNames.contains f = false →
       applyParam td (f, v) = { td with meta := vmapInsert td.meta f v } ∧
       vmapGet (applyParam td (f, v)).meta f = some v) := by
  refine ⟨rfl, ?_, ?_, ?_, ?_, ?_⟩
  · have hf := findTask_storeSave s.store (savedRecord s task_id ps)
    rwa [savedRecord_id] at hf
  · intro h
    simp [savedRecord, h]
  · intro td0 h
    simp [savedRecord, h]
  · intro td f v h
    exact ⟨applyParam_recognized td (f, v) h, getField_setField_self td f v h⟩
  · intro td f v h
    refine ⟨applyParam_unrecognized td (f, v) h, ?_⟩
    rw [applyParam_unrecognized td (f, v) h]
    exact vmapGet_vmapInsert td.meta f v

/-- Fixture for the C3 witness: an empty backend state. -/
def exC3 : BackendState :=
  { store := [], queue := [], watched := ⟨[]⟩, events := [] }

/-- Witness for C3 at concrete inputs: on an empty store the saved record
is a fresh one; a recognized field (`status`) is set directly; an
unrecognized field (`progress`) is merged into `meta`. -/
theorem claim_C3_save_task_witness :
    savedRecord exC3 "w" [("status", Value.vstatus TaskStatus.QUEUED)] =
      TaskData.new "w" [("status", Value.vstatus TaskStatus.QUEUED)] ∧
    getField (setField { id := "w" } "status"
        (Value.vstatus TaskStatus.QUEUED)) "status" =
      some (Value.vstatus TaskStatus.QUEUED) ∧
    vmapGet (applyParam { id := "w" } ("progress", Value.vnat 5)).meta
      "progress" = some (Value.vnat 5) :=
  ⟨(claim_C3_save_task exC3 "w"
      [("status", Value.vstatus TaskStatus.QUEUED)]).2.2.1 rfl,
   ((claim_C3_save_task exC3 "w"
      [("status", Value.vstatus TaskStatus.QUEUED)]).2.2.2.2.1
      { id := "w" } "status" (Value.vstatus TaskStatus.QUEUED) rfl).2,
   ((claim_C3_save_task exC3 "w"
      [("status", Value.vstatus TaskStatus.QUEUED)]).2.2.2.2.2
      { id := "w" } "progress" (Value.vnat 5) rfl).2⟩

/-- Fixture for C1: a store holding one task that is already terminal. -/
def exTd1 : TaskData := { id := "t1", status := Value.vstatus TaskStatus.SUCCESS }

/-- Fixture state for C1. -/
def exC1 : BackendState :=
  { store := [exTd1], queue := [], watched := ⟨[]⟩, events := [] }

/-- C1 counterexample: the stored task `t1` is terminal (`SUCCESS`), yet
`save_task` with `status = QUEUED` succeeds (returns the id, raising no
`InvalidTransition`) and the stored status afterwards is `QUEUED` — the
status moved backward out of a terminal state. -/
theorem claim_C1_counterexample :
    (findTask exC1.store "t1").map TaskData.done = some true ∧
    (save_task exC1 "t1" [("status", Value.vstatus TaskStatus.QUEUED)]).2 =
      "t1" ∧
    (findTask (save_task exC1 "t1"
        [("status", Value.vstatus TaskStatus.QUEUED)]).1.store "t1").map
      (fun td => td.status) = some (Value.vstatus TaskStatus.QUEUED) :=
  ⟨rfl, rfl, rfl⟩

/-- C1 amended: no transition check exists anywhere.  `save_task` always
returns the id and applies whatever `status` the parameters supply — the
current status of the record, terminal or not, is never consulted — and
`put_task` resets the status of any existing record (terminal included)
to `QUEUED`.  No `InvalidTransition` failure exists and the status may
move backward. -/
theorem claim_C1_amended (s : BackendState) (task_id : String)
    (ps : List (String × Value)) (v : Value) (td0 : TaskData) :
    (save_task s task_id ps).2 = task_id ∧
    (lookupLast ps "status" = some v →
       (savedRecord s task_id ps).status = v) ∧
    (findTask s.store task_id = some td0 →
       (findTask (put_task s task_id).1.store task_id).map
         (fun td => td.status) = some (Value.vstatus TaskStatus.QUEUED)) := by
  refine ⟨rfl, ?_, ?_⟩
  · intro h
    unfold savedRecord
    cases hf : findTask s.store task_id with
    | none =>
        show (TaskData.new task_id ps).status = v
        unfold TaskData.new
        rw [applyParams_status]
        simp [h]
    | some t0 =>
        rw [applyParams_status]
        simp [h]
  · intro h
    have hid : td0.id = task_id := findTask_id h
    simp only [put_task, h]
    rw [← hid]
    rw [findTask_storeSave s.store
      { td0 with status := Value.vstatus TaskStatus.QUEUED }]
    rfl

/-- Witness for the amended C1 at the terminal fixture: the backward save
is applied and `put_task` re-queues the terminal record. -/
theorem claim_C1_amended_witness :
    (save_task exC1 "t1" [("status", Value.vstatus TaskStatus.QUEUED)]).2 =
      "t1" ∧
    (savedRecord exC1 "t1"
        [("status", Value.vstatus TaskStatus.QUEUED)]).status =
      Value.vstatus TaskStatus.QUEUED ∧
    (findTask (put_task exC1 "t1").1.store "t1").map (fun td => td.status) =
      some (Value.vstatus TaskStatus.QUEUED) := by
  have h := claim_C1_amended exC1 "t1"
    [("status", Value.vstatus TaskStatus.QUEUED)]
    (Value.vstatus TaskStatus.QUEUED) exTd1
  exact ⟨h.1, h.2.1 rfl, h.2.2 rfl⟩

/-- C6: a `save_task` whose resulting record is terminal appends a publish
of the id on the `task_done` channel, and the publish event comes strictly
after the store write that persisted the record; a save whose resulting
record is non-terminal publishes nothing. -/
theorem claim_C6_publish_after_write (s : BackendState) (task_id : String)
    (ps : List (String × Value)) :
    ((savedRecord s task_id ps).done = true →
       ∃ i j, i < j ∧
         ((save_task s task_id ps).1.events.drop s.events.length).get? i =
           some (Event.storeWrite task_id) ∧
         ((save_task s task_id ps).1.events.drop s.events.length).get? j =
           some (Event.publish "task_done" task_id)) ∧
    ((savedRecord s task_id ps).done = false →
       ∀ ch x, Event.publish ch x ∉
         (save_task s task_id ps).1.events.drop s.events.length) := by
  have hΔ : (save_task s task_id ps).1.events.drop s.events.length
      = [Event.storeRead [task_id], Event.storeWrite task_id]
        ++ (if (s.watched.when_done (savedRecord s task_id ps)).2.2 then
              [Event.resolve (savedRecord s task_id ps)] else [])
        ++ (if (savedRecord s task_id ps).done then
              [Event.publish "task_done" task_id] else []) := by
    rw [show (Event.storeWrite task_id)
        = Event.storeWrite (savedRecord s task_id ps).id from by
      rw [savedRecord_id]]
    simp [save_task, List.append_assoc, List.drop_left]
  constructor
  · intro hd
    rw [hΔ, hd]
    cases hb : (s.watched.when_done (savedRecord s task_id ps)).2.2 with
    | true => exact ⟨1, 3, by omega, rfl, rfl⟩
    | false => exact ⟨1, 2, by omega, rfl, rfl⟩
  · intro hd ch x hmem
    rw [hΔ, hd] at hmem
    cases hb : (s.watched.when_done (savedRecord s task_id ps)).2.2 <;>
      rw [hb] at hmem <;> simp at hmem

/-- Fixture for the C6 witness: empty backend state. -/
def exC6 : BackendState :=
  { store := [], queue := [], watched := ⟨[]⟩, events := [] }

/-- Witness for C6: a save that makes a fresh task `SUCCESS` produces a
store write followed later by the publish on `task_done`. -/
theorem claim_C6_publish_after_write_witness :
    ∃ i j, i < j ∧
      ((save_task exC6 "t6" [("status", Value.vstatus TaskStatus.SUCCESS)]
        ).1.events.drop exC6.events.length).get? i =
        some (Event.storeWrite "t6") ∧
      ((save_task exC6 "t6" [("status", Value.vstatus TaskStatus.SUCCESS)]
        ).1.events.drop exC6.events.length).get? j =
        some (Event.publish "task_done" "t6") :=
  (claim_C6_publish_after_write exC6 "t6"
    [("status", Value.vstatus TaskStatus.SUCCESS)]).1 rfl

/-- Fixture record for the C4 witness. -/
def exTd4 : TaskData := { id := "a", status := Value.vstatus TaskStatus.STARTED }

/-- Fixture state for the C4 witness. -/
def exC4 : BackendState :=
  { store := [exTd4], queue := [], watched := ⟨[]⟩, events := [] }

/-- Witness for C4 at a store holding the record `a`. -/
theorem claim_C4_put_task_witness :
    (put_task exC4 "a").2 = some "a" ∧
    (put_task exC4 "a").1.queue = exC4.queue ++ ["a"] ∧
    findTask (put_task exC4 "a").1.store "a" =
      some { exTd4 with status := Value.vstatus TaskStatus.QUEUED } ∧
    Event.storeWrite "a" ∈ (put_task exC4 "a").1.events :=
  (claim_C4_put_task exC4 "a").2 exTd4 rfl

/-- `load_task` never touches the ready-queue. -/
theorem load_task_queue (s : BackendState) (tid : String) (wd : Bool) :
    (load_task s tid wd).1.queue = s.queue := by
  by_cases h : (tid == "") = true
  · simp [load_task, h]
  · cases hf : findTask s.store tid with
    | none => simp [load_task, h, hf]
    | some td => cases wd <;> simp [load_task, h, hf]

/-- Fixture state for C9: one record, its id sitting in the ready-queue. -/
def exC9 : BackendState :=
  { store := [{ id := "a", status := Value.vstatus TaskStatus.QUEUED }],
    queue := ["a"], watched := ⟨[]⟩, events := [] }

/-- C9 counterexample: `get_task` called with the explicitly supplied id
`""` (a falsy value) does pop the ready-queue — `num_tasks` drops from 1
to 0 and the logged pop event carries the timeout argument, which is
therefore not ignored. -/
theorem claim_C9_counterexample :
    num_tasks exC9 = 1 ∧
    (get_task exC9 (some "") false 7).1.queue = [] ∧
    Event.queuePop 7 (some "a") ∈ (get_task exC9 (some "") false 7).1.events := by
  refine ⟨rfl, rfl, ?_⟩
  show Event.queuePop 7 (some "a") ∈
    [Event.queuePop 7 (some "a"), Event.storeRead ["a"]]
  exact List.mem_cons_self _ _

/-- C9 amended: `get_task` with a non-empty explicit id never pops from
the ready-queue and ignores the timeout parameter entirely — the result
is identical for any two timeouts, the queue is unchanged, and
`num_tasks` is unchanged.  (With a falsy explicit id such as `""` the
queue is popped, see the counterexample.) -/
theorem claim_C9_amended (s : BackendState) (t : String) (wd : Bool)
    (t1 t2 : Nat) (h : t ≠ "") :
    get_task s (some t) wd t1 = get_task s (some t) wd t2 ∧
    (get_task s (some t) wd t1).1.queue = s.queue ∧
    num_tasks (get_task s (some t) wd t1).1 = num_tasks s := by
  have hb : (t == "") = false := by
    cases hbb : (t == "") with
    | true => exact absurd (beq_iff_eq.mp hbb) h
    | false => rfl
  have hred : ∀ timeout : Nat, get_task s (some t) wd timeout = load_task s t wd := by
    intro timeout
    simp [get_task, hb]
  rw [hred t1, hred t2]
  refine ⟨rfl, load_task_queue s t wd, ?_⟩
  show (load_task s t wd).1.queue.length = s.queue.length
  rw [load_task_queue s t wd]

/-- Witness for the amended C9. -/
theorem claim_C9_amended_witness :
    get_task exC9 (some "a") false 7 = get_task exC9 (some "a") false 8 ∧
    (get_task exC9 (some "a") false 7).1.queue = exC9.queue ∧
    num_tasks (get_task exC9 (some "a") false 7).1 = num_tasks exC9 :=
  claim_C9_amended exC9 "a" false 7 8 (by decide)

/-- Fixture record for C2: a non-terminal (`STARTED`) task. -/
def exTd2 : TaskData := { id := "t2", status := Value.vstatus TaskStatus.STARTED }

/-- Fixture state for C2: a waiter is registered for the non-terminal
task `t2`. -/
def exC2 : BackendState :=
  { store := [exTd2], queue := [], watched := ⟨["t2"]⟩, events := [] }

/-- C2 counterexample: the reloaded record is non-terminal, so by the
claim the callback must be a silent no-op leaving the waiter registered;
instead `write` resolves the waiter (the pending list empties and a
resolution carrying the non-terminal record is logged). -/
theorem claim_C2_counterexample :
    (findTask exC2.store "t2").map TaskData.done = some false ∧
    exC2.watched.pending = ["t2"] ∧
    (write exC2 "t2").watched.pending = [] ∧
    Event.resolve exTd2 ∈ (write exC2 "t2").events := by
  refine ⟨rfl, rfl, rfl, ?_⟩
  show Event.resolve exTd2 ∈ [Event.storeRead ["t2"], Event.resolve exTd2]
  exact List.mem_cons_of_mem _ (List.mem_singleton.mpr rfl)

/-- C2 amended: the completion-channel callback reloads the record; if the
record is absent it is a silent no-op (only the read is logged); if the
record exists — terminal or not, its status is never consulted — the
callback resolves any local waiter for the id with the reloaded record. -/
theorem claim_C2_amended (s : BackendState) (task_id : String)
    (td : TaskData) :
    (findTask s.store task_id = none →
       write s task_id =
         { s with events := s.events ++ [Event.storeRead [task_id]] }) ∧
    (findTask s.store task_id = some td →
       (write s task_id).watched.pending =
         s.watched.pending.filter (fun x => !(x == task_id)) ∧
       (task_id ∈ s.watched.pending →
          Event.resolve td ∈ (write s task_id).events) ∧
       (write s task_id).store = s.store) := by
  constructor
  · intro h
    simp [write, h]
  · intro h
    have hid : td.id = task_id := findTask_id h
    simp only [write, h]
    refine ⟨?_, ?_, by trivial⟩
    · show s.watched.pending.filter (fun x => !(x == td.id)) =
        s.watched.pending.filter (fun x => !(x == task_id))
      rw [hid]
    · intro hp
      have hc : s.watched.pending.contains td.id = true := by
        rw [hid]
        exact List.elem_iff.mpr hp
      show Event.resolve td ∈
        s.events ++ [Event.storeRead [task_id]] ++
          (if s.watched.pending.contains td.id then [Event.resolve td]
           else [])
      rw [hc]
      simp

/-- Witness for the amended C2 at the non-terminal fixture. -/
theorem claim_C2_amended_witness :
    (write exC2 "t2").watched.pending = [] ∧
    Event.resolve exTd2 ∈ (write exC2 "t2").events ∧
    (write exC2 "t2").store = exC2.store := by
  have h := (claim_C2_amended exC2 "t2" exTd2).2 rfl
  exact ⟨by rw [h.1]; rfl, h.2.1 (List.mem_singleton.mpr rfl), h.2.2⟩

/-- C7: deleting a non-empty id set returns exactly the number of records
removed from the store, and for every removed record any outstanding local
waiter for its id is force-resolved — the id is no longer pending, and if
it was pending a resolution event for it is logged. -/
theorem claim_C7_delete_tasks (s : BackendState) (l : List String)
    (hne : l ≠ []) :
    (delete_tasks s (some l)).2 =
      s.store.length - (delete_tasks s (some l)).1.store.length ∧
    (∀ td, td ∈ s.store → l.contains td.id = true →
       td.id ∉ (delete_tasks s (some l)).1.watched.pending) ∧
    (∀ td, td ∈ s.store → l.contains td.id = true →
       td.id ∈ s.watched.pending →
       ∃ r, Event.resolve r ∈ (delete_tasks s (some l)).1.events ∧
         r.id = td.id) := by
  have hl : l.isEmpty = false := by
    cases l with
    | nil => exact absurd rfl hne
    | cons a as => rfl
  simp only [delete_tasks, hl, Bool.false_eq_true, if_false]
  refine ⟨?_, ?_, ?_⟩
  · have hsplit := filter_length_split (fun t : TaskData => l.contains t.id)
      s.store
    omega
  · intro td hmem hc
    exact finishAll_removed _ _ td (List.mem_filter.mpr ⟨hmem, hc⟩)
  · intro td hmem hc hp
    obtain ⟨r, hr, hrid⟩ := finishAll_resolve_event
      (s.store.filter (fun t => l.contains t.id)) s.watched td
      (List.mem_filter.mpr ⟨hmem, hc⟩) hp
    exact ⟨r, List.mem_append_right _ hr, hrid⟩

/-- Fixture record for the C7 witness: a non-terminal task with a pending
waiter that gets deleted. -/
def exTd7 : TaskData := { id := "t7", status := Value.vstatus TaskStatus.QUEUED }

/-- Fixture state for the C7 witness. -/
def exC7 : BackendState :=
  { store := [exTd7], queue := [], watched := ⟨["t7"]⟩, events := [] }

/-- Witness for C7: deleting the only record returns 1 and releases the
pending waiter for it. -/
theorem claim_C7_delete_tasks_witness :
    (delete_tasks exC7 (some ["t7"])).2 =
      exC7.store.length - (delete_tasks exC7 (some ["t7"])).1.store.length ∧
    "t7" ∉ (delete_tasks exC7 (some ["t7"])).1.watched.pending ∧
    ∃ r, Event.resolve r ∈ (delete_tasks exC7 (some ["t7"])).1.events ∧
      r.id = "t7" := by
  have h := claim_C7_delete_tasks exC7 ["t7"] (by decide)
  exact ⟨h.1,
    h.2.1 exTd7 (List.mem_singleton.mpr rfl) rfl,
    h.2.2 exTd7 (List.mem_singleton.mpr rfl) rfl
      (List.mem_singleton.mpr rfl)⟩

theorem beq_empty_false {t : String} (h : t ≠ "") : (t == "") = false := by
  cases hbb : (t == "") with
  | true => exact absurd (beq_iff_eq.mp hbb) h
  | false => rfl

theorem load_task_absent (s : BackendState) (tid : String) (wd : Bool)
    (h : (tid == "") = false) (hf : findTask s.store tid = none) :
    (load_task s tid wd).2 = GetResult.absent := by
  simp [load_task, h, hf]

theorem load_task_found_nowd (s : BackendState) (tid : String)
    (td : TaskData) (h : (tid == "") = false)
    (hf : findTask s.store tid = some td) :
    (load_task s tid false).2 = GetResult.task td := by
  simp [load_task, h, hf]

theorem load_task_found_done (s : BackendState) (tid : String)
    (td : TaskData) (h : (tid == "") = false)
    (hf : findTask s.store tid = some td) (hd : td.done = true) :
    (load_task s tid true).2 = GetResult.task td := by
  simp [load_task, h, hf, (when_done_done s.watched td hd).1]

theorem load_task_found_waiting (s : BackendState) (tid : String)
    (td : TaskData) (h : (tid == "") = false)
    (hf : findTask s.store tid = some td) (hd : td.done = false) :
    (load_task s tid true).2 = GetResult.waiting tid ∧
    tid ∈ (load_task s tid true).1.watched.pending := by
  have hw := when_done_not_done s.watched td hd
  have hid : td.id = tid := findTask_id hf
  rw [hid] at hw
  constructor
  · simp [load_task, h, hf, hw.1]
  · simp only [load_task, h, hf, Bool.false_eq_true, if_false, if_true]
    exact hw.2

/-- Fixture record for C5: a record whose id is the empty string. -/
def exTdE : TaskData := { id := "", status := Value.vstatus TaskStatus.STARTED }

/-- Fixture record for C5: the record whose id sits in the ready-queue. -/
def exTdA : TaskData := { id := "a", status := Value.vstatus TaskStatus.QUEUED }

/-- Fixture state for the C5 counterexample. -/
def exC5 : BackendState :=
  { store := [exTdE, exTdA], queue := ["a"], watched := ⟨[]⟩, events := [] }

/-- C5 counterexample: the explicit id `""` is supplied and a record with
that id exists, so by the claim the queue must be skipped and that record
loaded directly; instead the code pops `a` from the ready-queue and
returns the record `a`. -/
theorem claim_C5_counterexample :
    findTask exC5.store "" = some exTdE ∧
    (get_task exC5 (some "") false 1).2 = GetResult.task exTdA ∧
    (get_task exC5 (some "") false 1).1.queue = [] :=
  ⟨rfl, rfl, rfl⟩

/-- C5 amended: with a non-empty explicit id the ready-queue is skipped
and that record is loaded directly; with no id, an id is popped from the
ready-queue (a pop on an empty queue times out and yields absent, and a
popped falsy id yields absent without loading — only the pop is logged);
once a non-empty id is obtained, on either path, an absent record yields
absent, otherwise the record is returned as a task — or, with
`when_done`, delivered at once if already terminal and otherwise turned
into a registered suspension for that id. -/
theorem claim_C5_amended (s : BackendState) (wd : Bool) (timeout : Nat) :
    (∀ t : String, t ≠ "" →
       (get_task s (some t) wd timeout).1.queue = s.queue ∧
       (findTask s.store t = none →
          (get_task s (some t) wd timeout).2 = GetResult.absent) ∧
       (∀ td, findTask s.store t = some td →
          (wd = false →
             (get_task s (some t) wd timeout).2 = GetResult.task td) ∧
          (wd = true → td.done = true →
             (get_task s (some t) wd timeout).2 = GetResult.task td) ∧
          (wd = true → td.done = false →
             (get_task s (some t) wd timeout).2 = GetResult.waiting t ∧
             t ∈ (get_task s (some t) wd timeout).1.watched.pending))) ∧
    (s.queue = [] →
       get_task s none wd timeout =
         ({ s with events := s.events ++ [Event.queuePop timeout none] },
          GetResult.absent)) ∧
    (∀ h rest, s.queue = h :: rest →
       (get_task s none wd timeout).1.queue = rest ∧
       (h = "" →
          (get_task s none wd timeout).2 = GetResult.absent ∧
          (get_task s none wd timeout).1.events =
            s.events ++ [Event.queuePop timeout (some h)]) ∧
       (h ≠ "" →
          (findTask s.store h = none →
             (get_task s none wd timeout).2 = GetResult.absent) ∧
          (∀ td, findTask s.store h = some td →
             (wd = false →
                (get_task s none wd timeout).2 = GetResult.task td) ∧
             (wd = true → td.done = true →
                (get_task s none wd timeout).2 = GetResult.task td) ∧
             (wd = true → td.done = false →
                (get_task s none wd timeout).2 = GetResult.waiting h ∧
                h ∈ (get_task s none wd timeout).1.watched.pending)))) := by
  refine ⟨?_, ?_, ?_⟩
  · intro t ht
    have hb := beq_empty_false ht
    have hred : get_task s (some t) wd timeout = load_task s t wd := by
      simp [get_task, hb]
    rw [hred]
    refine ⟨load_task_queue s t wd, ?_, ?_⟩
    · intro hf
      exact load_task_absent s t wd hb hf
    · intro td hf
      refine ⟨?_, ?_, ?_⟩
      · intro hwd
        subst hwd
        exact load_task_found_nowd s t td hb hf
      · intro hwd hd
        subst hwd
        exact load_task_found_done s t td hb hf hd
      · intro hwd hd
        subst hwd
        exact load_task_found_waiting s t td hb hf hd
  · intro hq
    simp [get_task, get_task_pop, hq]
  · intro h rest hq
    have hred : get_task s none wd timeout =
        load_task
          { s with
            queue := rest
            events := s.events ++ [Event.queuePop timeout (some h)] }
          h wd := by
      simp [get_task, get_task_pop, hq]
    rw [hred]
    refine ⟨by rw [load_task_queue], ?_, ?_⟩
    · intro he
      subst he
      exact ⟨by simp [load_task], by simp [load_task]⟩
    · intro hne
      have hb := beq_empty_false hne
      constructor
      · intro hf
        exact load_task_absent _ h wd hb hf
      · intro td hf
        refine ⟨?_, ?_, ?_⟩
        · intro hwd
          subst hwd
          exact load_task_found_nowd _ h td hb hf
        · intro hwd hd
          subst hwd
          exact load_task_found_done _ h td hb hf hd
        · intro hwd hd
          subst hwd
          exact load_task_found_waiting _ h td hb hf hd

/-- Fixture state for the C5 witness. -/
def exC5w : BackendState :=
  { store := [{ id := "x", status := Value.vstatus TaskStatus.QUEUED }],
    queue := [], watched := ⟨[]⟩, events := [] }

/-- Fixture state for the C5 witness, pop path: the falsy id `""` sits in
the ready-queue while a record with that id exists in the store. -/
def exC5p : BackendState :=
  { store := [exTdE], queue := [""], watched := ⟨[]⟩, events := [] }

/-- Witness for the amended C5: a non-empty explicit id skips the (empty)
queue and returns its record directly; a popped falsy id yields absent
with only the pop logged, even though a record with that id exists. -/
theorem claim_C5_amended_witness :
    (get_task exC5w (some "x") false 3).1.queue = exC5w.queue ∧
    (get_task exC5w (some "x") false 3).2 =
      GetResult.task { id := "x", status := Value.vstatus TaskStatus.QUEUED } ∧
    (get_task exC5p none false 4).2 = GetResult.absent ∧
    (get_task exC5p none false 4).1.events =
      exC5p.events ++ [Event.queuePop 4 (some "")] := by
  have h := (claim_C5_amended exC5w false 3).1 "x" (by decide)
  have h2 := ((claim_C5_amended exC5p false 4).2.2 "" [] rfl).2.1 rfl
  exact ⟨h.1, (h.2.2 { id := "x", status := Value.vstatus TaskStatus.QUEUED }
    rfl).1 rfl, h2.1, h2.2⟩

end PulsarTasks
